import Mathlib

/-!
# Verification of the cache-loader engine

Shallow embedding of the current generic implementation of the
`loader` package (`loader.go`: `fastLoad`, `Load`, `refetch`,
`cacheItem.updateExpire`; `key_locker.go`: `InMemoryKeyLocker`).

Modelling conventions:
* Go `time.Time` values are modelled as `Int` nanoseconds counted from
  the zero time (January 1, year 1).  `time.Time.Before` is `<`.
  `InfiniteFuture = time.Unix(1<<63-62135596801, 999999999)` has internal
  seconds `2^63 - 1` (the maximal `int64`), i.e. the largest representable
  instant; every value produced by `time.Now()` is `≤` that bound.
* Go `error` values are an `Option Err` (`none` is the nil error).
* The generic `Value` type parameter stays a type parameter `V`; the Go
  zero value of `V` (which is both the `Loader.def` field and the contents
  of a freshly allocated `cacheItem`) is passed explicitly as `defv`.
* The `any` value returned by the `CacheDriver` is a sum: a genuine
  `*cacheItem[Value]`, a nil interface, or a foreign value of some other
  type (`DriverVal`).
-/

/-- Go errors produced or propagated by the loader.  `nilValue` stands for
the error "cache driver returns ok but the value is nil", `invalidValue`
for "cache driver returns invalid value %v", and `fetchFail n` for an
opaque error returned by the caller-supplied fetch function. -/
inductive Err where
  | nilValue : Err
  | invalidValue : Err
  | fetchFail : Nat → Err
deriving DecidableEq

/-- Internal nanoseconds of `InfiniteFuture = time.Unix(1<<63-62135596801,
999999999)`: seconds since the zero time are `2^63 - 1` (maximal `int64`)
and nanoseconds `999999999`. -/
def maxGoTime : Int := (2 ^ 63 - 1) * 1000000000 + 999999999

/-- `expire.Before(now)`: the staleness comparison used by `fastLoad`. -/
def isStale (expire now : Int) : Bool := decide (expire < now)

/-- `cacheItem.updateExpire`: `if ttl <= 0 { i.expire = InfiniteFuture }
else { i.expire = time.Now().Add(ttl) }`. -/
def updateExpire (now ttl : Int) : Int :=
  if ttl ≤ 0 then maxGoTime else now + ttl

/-- The fields of `cacheItem[Value]` (the `sync.RWMutex` is represented
only where locking order matters, in the interleaving model below). -/
structure cacheItem (V : Type) where
  value : V
  err : Option Err
  expire : Int
  isFetching : Bool
deriving DecidableEq

/-- What `CacheDriver.Get` can hand back when it reports `ok`: a
`*cacheItem[Value]`, a nil interface value, or a value of a foreign type. -/
inductive DriverVal (V : Type) where
  | item : cacheItem V → DriverVal V
  | nilVal : DriverVal V
  | foreign : DriverVal V
deriving DecidableEq

/-- Observable outcome of one `fastLoad` call. `ok` is the third Go return
value; `spawned` records whether `go l.refetch(key, item)` was started
(the `expire.Before(now) && isFetching.CompareAndSwap(false, true)`
branch); `dAfter` is the driver value for the key afterwards (the CAS is
its only mutation). -/
structure FastOut (V : Type) where
  value : V
  err : Option Err
  ok : Bool
  spawned : Bool
  dAfter : Option (DriverVal V)
deriving DecidableEq

/-- `Loader.fastLoad`, translated clause by clause from the source:
miss, nil interface, foreign type, then the read of the entry under its
read lock together with the staleness CAS. -/
def fastLoad {V : Type} (defv : V) (d : Option (DriverVal V)) (now : Int) :
    FastOut V :=
  match d with
  | none => ⟨defv, none, false, false, d⟩
  | some DriverVal.nilVal => ⟨defv, some Err.nilValue, true, false, d⟩
  | some DriverVal.foreign => ⟨defv, some Err.invalidValue, true, false, d⟩
  | some (DriverVal.item it) =>
    let spawn := isStale it.expire now && !it.isFetching
    ⟨it.value, it.err, true, spawn,
      some (DriverVal.item { it with isFetching := it.isFetching || spawn })⟩

/-- Outcome of invoking the caller-supplied fetch function once:
a value, an error, or an unrecoverable runtime fault (panic). -/
inductive FetchOutcome (V : Type) where
  | ok : V → FetchOutcome V
  | fail : Err → FetchOutcome V
  | fault : FetchOutcome V
deriving DecidableEq

/-- How one `Load` invocation terminates: a normal `(value, error)`
return, or a panic propagated out of `Load` to its caller. -/
inductive LoadResult (V : Type) where
  | ret : V → Option Err → LoadResult V
  | panicked : LoadResult V
deriving DecidableEq

/-- All effects of one `Load` invocation that the claims talk about.
`entryWritten` is the `cacheItem` stored at the key by this call (the
placeholder, as later mutated by the synchronous fetch path), `none` when
the call never executed `driver.Add`.  `lockReleased` records whether the
`unlock` returned by `KeyLocker.Lock` was invoked; `writerReleased`
whether `item.mutex.Unlock()` ran (it is deferred, so it also runs while a
panic unwinds). -/
structure LoadObs (V : Type) where
  result : LoadResult V
  fetched : Bool
  spawned : Bool
  lockAcquired : Bool
  lockReleased : Bool
  writerReleased : Bool
  entryWritten : Option (cacheItem V)
deriving DecidableEq

/-- `Loader.Load`, one invocation.  Because `Load` can block on
`l.lock.Lock(key)`, the driver may change while it waits: `d1` is the
driver value for the key at the fast-path `fastLoad` and `d2` the value at
the double-check `fastLoad`.  `fetch` is the outcome of `l.fn` if the call
reaches it; `now` is the clock at the expiry update.

The translation follows the source exactly; in particular the
double-check-hit branch returns without invoking `unlock` (there is no
`defer unlock()` in this version of `Load`), and a fault in `l.fn`
propagates (this version has no `recover`), the deferred
`item.mutex.Unlock()` still running. -/
def Load {V : Type} (ttl errTtl : Int) (defv : V)
    (d1 d2 : Option (DriverVal V)) (fetch : FetchOutcome V) (now : Int) :
    LoadObs V :=
  let f1 := fastLoad defv d1 now
  if f1.ok then
    { result := LoadResult.ret f1.value f1.err, fetched := false,
      spawned := f1.spawned, lockAcquired := false, lockReleased := false,
      writerReleased := true, entryWritten := none }
  else
    let f2 := fastLoad defv d2 now
    if f2.ok then
      -- double check hit: return v, err  (no unlock on this path)
      { result := LoadResult.ret f2.value f2.err, fetched := false,
        spawned := f2.spawned, lockAcquired := true, lockReleased := false,
        writerReleased := true, entryWritten := none }
    else
      -- placeholder := &cacheItem[Value]{}; Add; unlock(); fetch
      match fetch with
      | FetchOutcome.ok v =>
        { result := LoadResult.ret v none, fetched := true, spawned := false,
          lockAcquired := true, lockReleased := true, writerReleased := true,
          entryWritten := some
            { value := v, err := none, expire := updateExpire now ttl,
              isFetching := false } }
      | FetchOutcome.fail e =>
        -- item.err = err; item.updateExpire(l.errTtl); return l.def, err
        { result := LoadResult.ret defv (some e), fetched := true,
          spawned := false, lockAcquired := true, lockReleased := true,
          writerReleased := true,
          entryWritten := some
            { value := defv, err := some e,
              expire := updateExpire now errTtl, isFetching := false } }
      | FetchOutcome.fault =>
        -- no recover: the panic unwinds through Load; the deferred
        -- item.mutex.Unlock() runs; the placeholder stays in the driver
        -- with the zero value, nil error and the zero expire time.
        { result := LoadResult.panicked, fetched := true, spawned := false,
          lockAcquired := true, lockReleased := true, writerReleased := true,
          entryWritten := some
            { value := defv, err := none, expire := 0, isFetching := false } }

/-- `Loader.refetch`, the background refresh body, given the fetch result
`(fetchV, fetchE)` of `l.fn`.  Every field of the item is assigned:
`item.value, item.err = value, err` unconditionally, then the expiry
update chosen by the error, and the deferred `isFetching.Store(false)`.
The prior item `it` is the receiver being overwritten. -/
def refetch {V : Type} (ttl errTtl : Int) (it : cacheItem V)
    (fetchV : V) (fetchE : Option Err) (now : Int) : cacheItem V :=
  { value := fetchV, err := fetchE,
    expire := if fetchE.isSome then updateExpire now errTtl
              else updateExpire now ttl,
    isFetching := false }

/-- Claim C5: when the driver holds a valid entry, `Load` returns that
entry's current value and error immediately (fast path, no fetch),
regardless of staleness; the background refresh is spawned exactly when
the expiry has passed and the compare-and-swap on `isFetching` from false
to true succeeds; and the outcome of the fetch function does not affect
this call's return value (the observation is independent of the `fetch`
argument). -/
theorem C5_fast_path_returns_current_entry {V : Type} (ttl errTtl now : Int)
    (defv : V) (it : cacheItem V) (d2 : Option (DriverVal V))
    (fetch fetch2 : FetchOutcome V) :
    (Load ttl errTtl defv (some (DriverVal.item it)) d2 fetch now).result
        = LoadResult.ret it.value it.err ∧
    (Load ttl errTtl defv (some (DriverVal.item it)) d2 fetch now).fetched
        = false ∧
    (Load ttl errTtl defv (some (DriverVal.item it)) d2 fetch now).spawned
        = (isStale it.expire now && !it.isFetching) ∧
    Load ttl errTtl defv (some (DriverVal.item it)) d2 fetch now
        = Load ttl errTtl defv (some (DriverVal.item it)) d2 fetch2 now := by
  refine ⟨rfl, rfl, rfl, rfl⟩

/-- Claim C6: if the driver reports found but hands back a nil value or a
value that is not a `*cacheItem[Value]`, `Load` returns the corresponding
descriptive error with the default value and performs no fetch — on the
fast path as well as on the double-check after the key lock. -/
theorem C6_corrupt_driver_value_reported {V : Type} (ttl errTtl now : Int)
    (defv : V) (d2 : Option (DriverVal V)) (fetch : FetchOutcome V) :
    ((Load ttl errTtl defv (some DriverVal.nilVal) d2 fetch now).result
        = LoadResult.ret defv (some Err.nilValue) ∧
     (Load ttl errTtl defv (some DriverVal.nilVal) d2 fetch now).fetched
        = false) ∧
    ((Load ttl errTtl defv (some DriverVal.foreign) d2 fetch now).result
        = LoadResult.ret defv (some Err.invalidValue) ∧
     (Load ttl errTtl defv (some DriverVal.foreign) d2 fetch now).fetched
        = false) ∧
    ((Load ttl errTtl defv none (some DriverVal.nilVal) fetch now).result
        = LoadResult.ret defv (some Err.nilValue) ∧
     (Load ttl errTtl defv none (some DriverVal.nilVal) fetch now).fetched
        = false) ∧
    ((Load ttl errTtl defv none (some DriverVal.foreign) fetch now).result
        = LoadResult.ret defv (some Err.invalidValue) ∧
     (Load ttl errTtl defv none (some DriverVal.foreign) fetch now).fetched
        = false) := by
  refine ⟨⟨rfl, rfl⟩, ⟨rfl, rfl⟩, ⟨rfl, rfl⟩, ⟨rfl, rfl⟩⟩

/-- Claim C9: a zero or negative TTL makes `updateExpire` store
`InfiniteFuture`, and against that expiry the staleness test
`expire.Before(now)` is false for every representable clock value, so
`fastLoad` never spawns a background refresh for such an entry. -/
theorem C9_nonpositive_ttl_never_stale {V : Type} (now ttl : Int)
    (h : ttl ≤ 0) (defv v : V) (er : Option Err) (b : Bool) :
    updateExpire now ttl = maxGoTime ∧
    ∀ now2, now2 ≤ maxGoTime →
      (isStale (updateExpire now ttl) now2 = false ∧
       (fastLoad defv (some (DriverVal.item
          { value := v, err := er, expire := updateExpire now ttl,
            isFetching := b })) now2).spawned = false) := by
  have he : updateExpire now ttl = maxGoTime := if_pos h
  refine ⟨he, fun now2 h2 => ?_⟩
  have hs : isStale (updateExpire now ttl) now2 = false := by
    simp only [he, isStale, decide_eq_false_iff_not, not_lt]
    exact h2
  exact ⟨hs, by simp [fastLoad, hs]⟩

/-- Concrete witness for C9: ttl = 0 at clock 5, read at clock 6. -/
theorem C9_witness :
    (0 : Int) ≤ 0 ∧ (6 : Int) ≤ maxGoTime ∧
    updateExpire 5 0 = maxGoTime ∧
    isStale (updateExpire 5 0) 6 = false ∧
    (fastLoad (0 : Int) (some (DriverVal.item
        { value := 3, err := none, expire := updateExpire 5 0,
          isFetching := false })) 6).spawned = false := by
  have h := C9_nonpositive_ttl_never_stale 5 0 (by decide) (0 : Int) 3 none false
  have h2 := h.2 6 (by decide)
  exact ⟨by decide, by decide, h.1, h2.1, h2.2⟩

/-- Claim C10: when the synchronous first-population fetch fails, `Load`
returns the zero value of `Value` (the `Loader.def` field) paired with the
fetch error, and the placeholder entry remains stored in the driver
holding that error, the untouched zero value, and an `errTtl`-based
expiry. -/
theorem C10_first_fetch_error_returns_default {V : Type}
    (ttl errTtl now : Int) (defv : V) (e : Err) :
    Load ttl errTtl defv none none (FetchOutcome.fail e) now =
      { result := LoadResult.ret defv (some e), fetched := true,
        spawned := false, lockAcquired := true, lockReleased := true,
        writerReleased := true,
        entryWritten := some
          { value := defv, err := some e,
            expire := updateExpire now errTtl, isFetching := false } } := by
  rfl

/-- Claim C2 (refuted): the current `refetch` body executes
`item.value, item.err = value, err` unconditionally, so a failed
background refresh overwrites the previously cached value with whatever
the failed fetch returned (here the zero value 0), instead of retaining
it.  Entry with cached value 7, refresh fails at clock 200 with
errTtl = 50: the error and `now + errTtl` are stored as claimed, but the
value becomes 0, not 7. -/
theorem C2_failed_refresh_overwrites_value :
    @refetch Int 100 50 ⟨7, none, 100, true⟩ 0 (some (Err.fetchFail 1)) 200 =
      ⟨0, some (Err.fetchFail 1), 250, false⟩ ∧
    (@refetch Int 100 50 ⟨7, none, 100, true⟩ 0 (some (Err.fetchFail 1))
        200).value ≠ (7 : Int) := by
  refine ⟨by decide, by decide⟩

/-- Claim C4 (refuted in part): the current `Load` has no `recover`, so an
unrecoverable fault raised by the synchronous fetch propagates to `Load`'s
caller instead of being returned as an error (`result = panicked`, not a
`ret`).  The lock half of the claim does hold: the key lock was released
before the fetch was invoked and the deferred entry unlock runs during
unwinding (`lockReleased` and `writerReleased` are both true), the
placeholder staying behind with the zero value and zero expiry. -/
theorem C4_fetch_fault_propagates :
    @Load Int 10 10 0 none none FetchOutcome.fault 100 =
      { result := LoadResult.panicked, fetched := true, spawned := false,
        lockAcquired := true, lockReleased := true, writerReleased := true,
        entryWritten := some
          { value := 0, err := none, expire := 0, isFetching := false } } := by
  decide


/-! ## The key lock table (`key_locker.go`, `InMemoryKeyLocker`) -/

/-- `inMemoryKeyLockerItem`: the reference count (`ref int32`) and the
held bit of its mutex `m`. -/
structure LockRecord where
  ref : Int
  held : Bool
deriving DecidableEq

/-- The `InMemoryKeyLocker` table: `locks map[Key]*inMemoryKeyLockerItem`.
(The table-wide guard `root sync.Mutex` serializes `getItem` and
`releaseItem`; each of them is accordingly one atomic state
transformation here.) -/
structure LockerState (K : Type) where
  locks : K → Option LockRecord

/-- The freshly constructed locker: an empty table. -/
def lockerInit (K : Type) : LockerState K := ⟨fun _ => none⟩

/-- `InMemoryKeyLocker.getItem`: under the guard, look the record up,
create it if absent, and increment its refcount. -/
def getItem {K : Type} [DecidableEq K] (s : LockerState K) (k : K) :
    LockerState K :=
  match s.locks k with
  | none => ⟨fun k2 => if k2 = k then some ⟨1, false⟩ else s.locks k2⟩
  | some r => ⟨fun k2 => if k2 = k then some ⟨r.ref + 1, r.held⟩ else s.locks k2⟩

/-- `InMemoryKeyLocker.releaseItem`: under the guard, decrement the
record's refcount (`item.ref -= 1`) and delete the record when the result
is `<= 0`; a no-op when no record exists. -/
def releaseItem {K : Type} [DecidableEq K] (s : LockerState K) (k : K) :
    LockerState K :=
  match s.locks k with
  | none => s
  | some r =>
    if r.ref - 1 ≤ 0 then ⟨fun k2 => if k2 = k then none else s.locks k2⟩
    else ⟨fun k2 => if k2 = k then some ⟨r.ref - 1, r.held⟩ else s.locks k2⟩

/-- `item.m.Unlock()` on the key's record (the closure unlocks through its
captured pointer; in these single-table scenarios that pointer is the
table's record for `k`). -/
def mutexUnlock {K : Type} [DecidableEq K] (s : LockerState K) (k : K) :
    LockerState K :=
  ⟨fun k2 => if k2 = k then (s.locks k).map (fun r => ⟨r.ref, false⟩)
   else s.locks k2⟩

/-- One call of the closure returned by `InMemoryKeyLocker.Lock`: with the
captured `unlocked` flag, `if unlocked { return }`, otherwise
`item.m.Unlock(); l.releaseItem(key); unlocked = true`.  Returns the new
table state and the new flag. -/
def callUnlock {K : Type} [DecidableEq K] (s : LockerState K) (k : K)
    (unlocked : Bool) : LockerState K × Bool :=
  if unlocked then (s, unlocked)
  else (releaseItem (mutexUnlock s k) k, true)

/-- Claim C7: the release closure is idempotent — the first call sets the
`unlocked` flag, and any call finding the flag set returns the table
completely unchanged: no mutex unlock, no refcount decrement, no table
mutation. -/
theorem C7_release_idempotent {K : Type} [DecidableEq K]
    (s : LockerState K) (k : K) :
    (callUnlock s k false).2 = true ∧
    ∀ s2 : LockerState K, callUnlock s2 k true = (s2, true) :=
  ⟨rfl, fun _ => rfl⟩

/-- A history of refcount operations against the lock table: `acq k` is
the `getItem` performed by `Lock(k)`, `rel k` the `releaseItem` performed
by the first call of the corresponding release closure. -/
inductive LockOp (K : Type) where
  | acq : K → LockOp K
  | rel : K → LockOp K

/-- Run one operation against the table. -/
def applyOp {K : Type} [DecidableEq K] (s : LockerState K) :
    LockOp K → LockerState K
  | LockOp.acq k => getItem s k
  | LockOp.rel k => releaseItem s k

/-- Run a history of operations against the table, oldest first. -/
def applyOps {K : Type} [DecidableEq K] (s : LockerState K) :
    List (LockOp K) → LockerState K
  | [] => s
  | op :: rest => applyOps (applyOp s op) rest

/-- Number of `acq k` operations in a history. -/
def acqCount {K : Type} [DecidableEq K] (k : K) : List (LockOp K) → Int
  | [] => 0
  | LockOp.acq k2 :: rest => (if k2 = k then 1 else 0) + acqCount k rest
  | LockOp.rel _ :: rest => acqCount k rest

/-- Number of `rel k` operations in a history. -/
def relCount {K : Type} [DecidableEq K] (k : K) : List (LockOp K) → Int
  | [] => 0
  | LockOp.acq _ :: rest => relCount k rest
  | LockOp.rel k2 :: rest => (if k2 = k then 1 else 0) + relCount k rest

/-- Holders or waiters a history leaves behind for key `k`. -/
def outstanding {K : Type} [DecidableEq K] (k : K)
    (ops : List (LockOp K)) : Int :=
  acqCount k ops - relCount k ops

/-- A history is balanced when no prefix releases a key more often than it
acquired it — which the idempotence of the release closures (C7)
guarantees for every history the loader can produce. -/
def BalancedOps {K : Type} [DecidableEq K] (ops : List (LockOp K)) : Prop :=
  ∀ (n : Nat) (k : K), relCount k (ops.take n) ≤ acqCount k (ops.take n)

/-- Balance relative to refcounts `f` already outstanding in the table. -/
def BalancedRel {K : Type} [DecidableEq K] (f : K → Int)
    (ops : List (LockOp K)) : Prop :=
  ∀ (n : Nat) (k : K), relCount k (ops.take n) ≤ f k + acqCount k (ops.take n)

/-- The table stores a record exactly for the keys whose count `f` is
positive, and that record's refcount is `f`. -/
def SInv {K : Type} (s : LockerState K) (f : K → Int) : Prop :=
  ∀ k : K, (0 < f k ∧ ∃ r, s.locks k = some r ∧ r.ref = f k) ∨
    (f k = 0 ∧ s.locks k = none)

theorem SInv_congr {K : Type} {s : LockerState K} {f g : K → Int}
    (h : ∀ k, f k = g k) (hs : SInv s f) : SInv s g := by
  intro k
  rcases hs k with ⟨h1, r, h2, h3⟩ | ⟨h1, h2⟩
  · exact Or.inl ⟨h k ▸ h1, r, h2, h k ▸ h3⟩
  · exact Or.inr ⟨h k ▸ h1, h2⟩

theorem getItem_SInv {K : Type} [DecidableEq K] {s : LockerState K}
    {f g : K → Int} (hs : SInv s f) (k0 : K)
    (hg0 : g k0 = f k0 + 1) (hg : ∀ k, k ≠ k0 → g k = f k) :
    SInv (getItem s k0) g := by
  intro k
  by_cases hk : k = k0
  · subst hk
    rcases hs k with ⟨h1, r0, h2, h3⟩ | ⟨h1, h2⟩
    · refine Or.inl ⟨by omega, ⟨r0.ref + 1, r0.held⟩, ?_, by
        show r0.ref + 1 = g k
        omega⟩
      unfold getItem
      rw [h2]
      simp
    · refine Or.inl ⟨by omega, ⟨1, false⟩, ?_, by
        show (1 : Int) = g k
        omega⟩
      unfold getItem
      rw [h2]
      simp
  · have hgk := hg k hk
    have hloc : (getItem s k0).locks k = s.locks k := by
      unfold getItem
      cases hcase : s.locks k0 <;> simp [hk]
    rcases hs k with ⟨h1, r, h2, h3⟩ | ⟨h1, h2⟩
    · exact Or.inl ⟨by omega, r, by rw [hloc, h2], by omega⟩
    · exact Or.inr ⟨by omega, by rw [hloc, h2]⟩

theorem releaseItem_SInv {K : Type} [DecidableEq K] {s : LockerState K}
    {f g : K → Int} (hs : SInv s f) (k0 : K) (hpos : 1 ≤ f k0)
    (hg0 : g k0 = f k0 - 1) (hg : ∀ k, k ≠ k0 → g k = f k) :
    SInv (releaseItem s k0) g := by
  rcases hs k0 with ⟨h1, r0, h2, h3⟩ | ⟨h1, h2⟩
  swap
  · exfalso
    omega
  intro k
  by_cases hk : k = k0
  · subst hk
    by_cases hone : r0.ref - 1 ≤ 0
    · refine Or.inr ⟨by omega, ?_⟩
      unfold releaseItem
      rw [h2]
      simp [hone]
    · refine Or.inl ⟨by omega, ⟨r0.ref - 1, r0.held⟩, ?_, by
        show r0.ref - 1 = g k
        omega⟩
      unfold releaseItem
      rw [h2]
      simp [hone]
  · have hgk := hg k hk
    have hloc : (releaseItem s k0).locks k = s.locks k := by
      unfold releaseItem
      rw [h2]
      by_cases hone : r0.ref - 1 ≤ 0 <;> simp [hone, hk]
    rcases hs k with ⟨g1, r, g2, g3⟩ | ⟨g1, g2⟩
    · exact Or.inl ⟨by omega, r, by rw [hloc, g2], by omega⟩
    · exact Or.inr ⟨by omega, by rw [hloc, g2]⟩

theorem applyOps_SInv {K : Type} [DecidableEq K] :
    ∀ (ops : List (LockOp K)) (s : LockerState K) (f : K → Int),
      SInv s f → BalancedRel f ops →
      SInv (applyOps s ops) (fun k => f k + outstanding k ops) := by
  intro ops
  induction ops with
  | nil =>
    intro s f hs _
    exact SInv_congr (fun k => by simp [outstanding, acqCount, relCount]) hs
  | cons op rest ih =>
    intro s f hs hb
    cases op with
    | acq k0 =>
      have hs1 : SInv (getItem s k0)
          (fun k => f k + if k = k0 then 1 else 0) := by
        refine getItem_SInv hs k0 (by simp) (fun k hk => by simp [hk])
      have hb1 : BalancedRel (fun k => f k + if k = k0 then 1 else 0) rest := by
        intro n k
        have hstep := hb (n + 1) k
        have hk2 : ¬(k0 = k) ∨ k = k0 := by
          by_cases hk : k = k0
          · exact Or.inr hk
          · exact Or.inl (fun h => hk h.symm)
        simp only [List.take_succ_cons, relCount, acqCount] at hstep
        rcases hk2 with hk2 | hk2
        · have hk3 : ¬(k = k0) := fun h => hk2 h.symm
          simp only [if_neg hk2] at hstep
          simp only [if_neg hk3, add_zero]
          omega
        · subst hk2
          simp only [if_pos rfl] at hstep ⊢
          omega
      have hmain := ih (getItem s k0) _ hs1 hb1
      refine SInv_congr (fun k => ?_) hmain
      simp only [outstanding, acqCount, relCount]
      by_cases hk : k = k0
      · subst hk
        simp only [if_pos rfl]
        omega
      · have hk3 : ¬(k0 = k) := fun h => hk h.symm
        simp only [if_neg hk, if_neg hk3, add_zero]
        omega
    | rel k0 =>
      have hpos : 1 ≤ f k0 := by
        have hstep := hb 1 k0
        have htake : (LockOp.rel k0 :: rest).take 1 = [LockOp.rel k0] := rfl
        rw [htake] at hstep
        simp [relCount, acqCount] at hstep
        omega
      have hs1 : SInv (releaseItem s k0)
          (fun k => f k - if k = k0 then 1 else 0) := by
        refine releaseItem_SInv hs k0 hpos (by simp) (fun k hk => by simp [hk])
      have hb1 : BalancedRel (fun k => f k - if k = k0 then 1 else 0) rest := by
        intro n k
        have hstep := hb (n + 1) k
        simp only [List.take_succ_cons, relCount, acqCount] at hstep
        by_cases hk : k = k0
        · subst hk
          simp only [if_pos rfl] at hstep ⊢
          omega
        · have hk3 : ¬(k0 = k) := fun h => hk h.symm
          simp only [if_neg hk3] at hstep
          simp only [if_neg hk, sub_zero]
          omega
      have hmain := ih (releaseItem s k0) _ hs1 hb1
      refine SInv_congr (fun k => ?_) hmain
      simp only [outstanding, acqCount, relCount]
      by_cases hk : k = k0
      · subst hk
        simp only [if_pos rfl]
        omega
      · have hk3 : ¬(k0 = k) := fun h => hk h.symm
        simp only [if_neg hk, if_neg hk3, sub_zero]
        omega

/-- Claim C8: a release that takes a record's refcount to zero deletes the
record from the table (first conjunct, directly about `releaseItem`), and
consequently, after any balanced history of `getItem`/`releaseItem`
operations starting from the empty table, a record exists for a key
exactly when that key has a positive number of current holders or waiters,
and its refcount equals that number — the table is bounded by current
contention, not by the key space ever seen. -/
theorem C8_lock_table_bounded_by_contention {K : Type} [DecidableEq K] :
    (∀ (s : LockerState K) (k : K) (r : LockRecord),
        s.locks k = some r → r.ref ≤ 1 → (releaseItem s k).locks k = none) ∧
    (∀ ops : List (LockOp K), BalancedOps ops → ∀ k : K,
        ((applyOps (lockerInit K) ops).locks k = none ∧
          outstanding k ops = 0) ∨
        (∃ r, (applyOps (lockerInit K) ops).locks k = some r ∧
          r.ref = outstanding k ops ∧ 0 < outstanding k ops)) := by
  constructor
  · intro s k r h2 h1
    unfold releaseItem
    rw [h2]
    simp [show r.ref - 1 ≤ 0 by omega]
  · intro ops hbal k
    have hs0 : SInv (lockerInit K) (fun _ => 0) := fun _ => Or.inr ⟨rfl, rfl⟩
    have hbr : BalancedRel (fun _ => (0 : Int)) ops := by
      intro n k2
      have hb := hbal n k2
      show relCount k2 (ops.take n) ≤ 0 + acqCount k2 (ops.take n)
      omega
    have hmain := applyOps_SInv ops (lockerInit K) _ hs0 hbr
    rcases hmain k with ⟨h1, r, h2, h3⟩ | ⟨h1, h2⟩
    · simp only [zero_add] at h1 h3
      exact Or.inr ⟨r, h2, h3, h1⟩
    · simp only [zero_add] at h1
      exact Or.inl ⟨h2, h1⟩

/-- Concrete witness for C8: releasing a singleton record deletes it, and
the balanced one-operation history `[acq 0]` leaves a record of
refcount 1. -/
theorem C8_witness :
    (releaseItem (LockerState.mk
        (fun n : Nat => if n = 0 then some ⟨1, true⟩ else none)) 0).locks 0
      = none ∧
    (∃ r, (applyOps (lockerInit Nat) [LockOp.acq 0]).locks 0 = some r ∧
      r.ref = outstanding 0 [LockOp.acq 0] ∧
      0 < outstanding 0 [LockOp.acq 0]) := by
  constructor
  · exact C8_lock_table_bounded_by_contention.1 _ 0 ⟨1, true⟩ (by simp)
      (by decide)
  · have hbal : BalancedOps [LockOp.acq (0 : Nat)] := by
      intro n k
      cases n with
      | zero => simp [relCount, acqCount]
      | succ m =>
        have htake : [LockOp.acq (0 : Nat)].take (m + 1) = [LockOp.acq 0] := by
          simp
        rw [htake]
        by_cases h : (0 : Nat) = k <;> simp [relCount, acqCount, h]
    rcases C8_lock_table_bounded_by_contention.2 [LockOp.acq 0] hbal 0 with
      ⟨h1, h2⟩ | h
    · exfalso
      simp [outstanding, acqCount, relCount] at h2
    · exact h

/-! ## Interleaving model: concurrent `Load` calls on one uncached key

Counter abstraction of any number of indistinguishable goroutines all
running `Load` for the same key against the default (never-evicting)
in-memory driver, within one freshness window (the reads happen before
the `ttl` written by the populating fetch expires, so the populated entry
is not stale).  Each field of `ThreadCounts` counts the goroutines
standing at one program point of `Load` (or of a spawned `refetch`); each
`Step` constructor is one atomic shared-memory action of the source, at
the granularity of the interference points: the two `driver.Get`s, the
`getItem` bookkeeping, the blocking `m.Lock()`, the `driver.Add`
publication, the `unlock()` call, and the begin/end of a fetch
invocation.  The double-check-hit return faithfully omits the `unlock()`
call, as the source does. -/

structure ThreadCounts where
  lGet1 : Nat
  lRead1 : Nat
  lGetItem : Nat
  lAcquire : Nat
  lGet2 : Nat
  lRead2 : Nat
  lCreate : Nat
  lUnlock : Nat
  lFetch : Nat
  lFetching : Nat
  doneVal : Nat
  doneRead : Nat
  doneLeak : Nat
  rFetch : Nat
  rFetching : Nat
  rDone : Nat
deriving DecidableEq

/-- Projection of the single key's `cacheItem` onto what the interleaving
claims need: whether its `expire` lies in the past for the reads of this
window (`stale`), the atomic `isFetching` flag, and whether its `RWMutex`
is write-held. -/
structure ItemState where
  stale : Bool
  fetching : Bool
  writer : Bool
deriving DecidableEq

/-- Shared state for the one key: the driver's entry (if `Add` ran), the
key's lock-table record refcount (`0` = record absent), whether the key
mutex is held, a ghost count of `l.fn` invocations, and the thread
counters. -/
structure CState where
  driver : Option ItemState
  lockRef : Nat
  lockHeld : Bool
  fetchCount : Nat
  th : ThreadCounts
deriving DecidableEq

def initThreads (n : Nat) : ThreadCounts :=
  ⟨n, 0, 0, 0, 0, 0, 0, 0, 0, 0, 0, 0, 0, 0, 0, 0⟩

/-- `n` goroutines about to call `Load` on the same key, entry absent,
lock table empty. -/
def init (n : Nat) : CState := ⟨none, 0, false, 0, initThreads n⟩

/-- One atomic action of one goroutine, as translated from `fastLoad`,
`Load`, `refetch` (`loader.go`) and `Lock`/`getItem`/`releaseItem`
(`key_locker.go`).  In order: fast-path `Get` miss/hit; fast-path read
under `RLock` without/with the staleness CAS spawning `refetch`; the
`getItem` bookkeeping; `m.Lock()` succeeding; double-check `Get`
miss/hit; double-check read without/with the CAS (both returning WITHOUT
`unlock()`, exactly as the source does); the placeholder allocation +
write-lock + `Add`; the `unlock()` before the fetch; begin/end of the
synchronous fetch (the populating write and deferred entry unlock, expiry
in the future); begin/end of a spawned `refetch`. -/
inductive Step : CState → CState → Prop where
  | get1Miss (s : CState) (h : 0 < s.th.lGet1) (hd : s.driver = none) :
      Step s { s with th := { s.th with lGet1 := s.th.lGet1 - 1, lGetItem := s.th.lGetItem + 1 } }
  | get1Hit (s : CState) (h : 0 < s.th.lGet1) (it : ItemState) (hd : s.driver = some it) :
      Step s { s with th := { s.th with lGet1 := s.th.lGet1 - 1, lRead1 := s.th.lRead1 + 1 } }
  | read1Plain (s : CState) (h : 0 < s.th.lRead1) (it : ItemState) (hd : s.driver = some it) (hw : it.writer = false) (hns : it.stale = false ∨ it.fetching = true) :
      Step s { s with th := { s.th with lRead1 := s.th.lRead1 - 1, doneRead := s.th.doneRead + 1 } }
  | read1Spawn (s : CState) (h : 0 < s.th.lRead1) (it : ItemState) (hd : s.driver = some it) (hw : it.writer = false) (hst : it.stale = true) (hf : it.fetching = false) :
      Step s { s with driver := some { it with fetching := true }, th := { s.th with lRead1 := s.th.lRead1 - 1, doneRead := s.th.doneRead + 1, rFetch := s.th.rFetch + 1 } }
  | getItemStep (s : CState) (h : 0 < s.th.lGetItem) :
      Step s { s with lockRef := s.lockRef + 1, th := { s.th with lGetItem := s.th.lGetItem - 1, lAcquire := s.th.lAcquire + 1 } }
  | acquire (s : CState) (h : 0 < s.th.lAcquire) (hl : s.lockHeld = false) :
      Step s { s with lockHeld := true, th := { s.th with lAcquire := s.th.lAcquire - 1, lGet2 := s.th.lGet2 + 1 } }
  | get2Miss (s : CState) (h : 0 < s.th.lGet2) (hd : s.driver = none) :
      Step s { s with th := { s.th with lGet2 := s.th.lGet2 - 1, lCreate := s.th.lCreate + 1 } }
  | get2Hit (s : CState) (h : 0 < s.th.lGet2) (it : ItemState) (hd : s.driver = some it) :
      Step s { s with th := { s.th with lGet2 := s.th.lGet2 - 1, lRead2 := s.th.lRead2 + 1 } }
  | read2Plain (s : CState) (h : 0 < s.th.lRead2) (it : ItemState) (hd : s.driver = some it) (hw : it.writer = false) (hns : it.stale = false ∨ it.fetching = true) :
      Step s { s with th := { s.th with lRead2 := s.th.lRead2 - 1, doneLeak := s.th.doneLeak + 1 } }
  | read2Spawn (s : CState) (h : 0 < s.th.lRead2) (it : ItemState) (hd : s.driver = some it) (hw : it.writer = false) (hst : it.stale = true) (hf : it.fetching = false) :
      Step s { s with driver := some { it with fetching := true }, th := { s.th with lRead2 := s.th.lRead2 - 1, doneLeak := s.th.doneLeak + 1, rFetch := s.th.rFetch + 1 } }
  | createStep (s : CState) (h : 0 < s.th.lCreate) :
      Step s { s with driver := some ⟨true, false, true⟩, th := { s.th with lCreate := s.th.lCreate - 1, lUnlock := s.th.lUnlock + 1 } }
  | unlockStep (s : CState) (h : 0 < s.th.lUnlock) :
      Step s { s with lockHeld := false, lockRef := s.lockRef - 1, th := { s.th with lUnlock := s.th.lUnlock - 1, lFetch := s.th.lFetch + 1 } }
  | fetchBegin (s : CState) (h : 0 < s.th.lFetch) :
      Step s { s with fetchCount := s.fetchCount + 1, th := { s.th with lFetch := s.th.lFetch - 1, lFetching := s.th.lFetching + 1 } }
  | fetchEnd (s : CState) (h : 0 < s.th.lFetching) (it : ItemState) (hd : s.driver = some it) :
      Step s { s with driver := some ⟨false, it.fetching, false⟩, th := { s.th with lFetching := s.th.lFetching - 1, doneVal := s.th.doneVal + 1 } }
  | refetchBegin (s : CState) (h : 0 < s.th.rFetch) :
      Step s { s with fetchCount := s.fetchCount + 1, th := { s.th with rFetch := s.th.rFetch - 1, rFetching := s.th.rFetching + 1 } }
  | refetchEnd (s : CState) (h : 0 < s.th.rFetching) (it : ItemState) (hd : s.driver = some it) (hw : it.writer = false) :
      Step s { s with driver := some ⟨false, false, it.writer⟩, th := { s.th with rFetching := s.th.rFetching - 1, rDone := s.th.rDone + 1 } }

/-- States reachable from `n` concurrent `Load` calls on the uncached key. -/
def Reach (n : Nat) (s : CState) : Prop :=
  Relation.ReflTransGen Step (init n) s

/-- Transport a step along a (decidable) equality of target states. -/
theorem stepCast {a b c : CState} (h : Step a b) (he : b = c) : Step a c :=
  he ▸ h

/-- The states of the two-goroutine leak interleaving behind C1:
T1 and T2 both miss the fast path and register in the lock table; T1
takes the key lock, double-checks (miss), publishes the placeholder,
unlocks, fetches and populates; T2 then takes the key lock, double-checks
(hit) and returns without unlocking. -/
def c1s1 : CState := ⟨none, 0, false, 0, ⟨1, 0, 1, 0, 0, 0, 0, 0, 0, 0, 0, 0, 0, 0, 0, 0⟩⟩

def c1s2 : CState := ⟨none, 0, false, 0, ⟨0, 0, 2, 0, 0, 0, 0, 0, 0, 0, 0, 0, 0, 0, 0, 0⟩⟩

def c1s3 : CState := ⟨none, 1, false, 0, ⟨0, 0, 1, 1, 0, 0, 0, 0, 0, 0, 0, 0, 0, 0, 0, 0⟩⟩

def c1s4 : CState := ⟨none, 2, false, 0, ⟨0, 0, 0, 2, 0, 0, 0, 0, 0, 0, 0, 0, 0, 0, 0, 0⟩⟩

def c1s5 : CState := ⟨none, 2, true, 0, ⟨0, 0, 0, 1, 1, 0, 0, 0, 0, 0, 0, 0, 0, 0, 0, 0⟩⟩

def c1s6 : CState := ⟨none, 2, true, 0, ⟨0, 0, 0, 1, 0, 0, 1, 0, 0, 0, 0, 0, 0, 0, 0, 0⟩⟩

def c1s7 : CState := ⟨some ⟨true, false, true⟩, 2, true, 0, ⟨0, 0, 0, 1, 0, 0, 0, 1, 0, 0, 0, 0, 0, 0, 0, 0⟩⟩

def c1s8 : CState := ⟨some ⟨true, false, true⟩, 1, false, 0, ⟨0, 0, 0, 1, 0, 0, 0, 0, 1, 0, 0, 0, 0, 0, 0, 0⟩⟩

def c1s9 : CState := ⟨some ⟨true, false, true⟩, 1, false, 1, ⟨0, 0, 0, 1, 0, 0, 0, 0, 0, 1, 0, 0, 0, 0, 0, 0⟩⟩

def c1s10 : CState := ⟨some ⟨false, false, false⟩, 1, false, 1, ⟨0, 0, 0, 1, 0, 0, 0, 0, 0, 0, 1, 0, 0, 0, 0, 0⟩⟩

def c1s11 : CState := ⟨some ⟨false, false, false⟩, 1, true, 1, ⟨0, 0, 0, 0, 1, 0, 0, 0, 0, 0, 1, 0, 0, 0, 0, 0⟩⟩

def c1s12 : CState := ⟨some ⟨false, false, false⟩, 1, true, 1, ⟨0, 0, 0, 0, 0, 1, 0, 0, 0, 0, 1, 0, 0, 0, 0, 0⟩⟩

def c1s13 : CState := ⟨some ⟨false, false, false⟩, 1, true, 1, ⟨0, 0, 0, 0, 0, 0, 0, 0, 0, 0, 1, 0, 1, 0, 0, 0⟩⟩

/-- Claim C1 (refuted): a complete interleaving of two `Load` calls on the
same uncached key in which the second call misses the fast path, waits on
the key lock while the first populates the entry, hits on the
double-check and returns — after which the key lock is still held
(`lockHeld = true`) and its lock-table record still present
(`lockRef = 1`), because the double-check-hit branch of `Load` never
calls `unlock()`.  The claim and the spec say the lock is released and
the record reclaimed on this path.  (The repository's own
`TestDoubleCheckLockLeak` documents this: "BUG: T2 does not unlock".) -/
theorem C1_double_check_hit_leaks_lock :
    Reach 2 c1s13 ∧ c1s13.th.doneLeak = 1 ∧ c1s13.th.doneVal = 1 ∧
      c1s13.fetchCount = 1 ∧ c1s13.lockHeld = true ∧ c1s13.lockRef = 1 := by
  have h0 : Reach 2 (init 2) := Relation.ReflTransGen.refl
  have h1 : Reach 2 c1s1 := h0.tail (stepCast (Step.get1Miss (init 2) (by decide) (by decide)) (by decide))
  have h2 : Reach 2 c1s2 := h1.tail (stepCast (Step.get1Miss c1s1 (by decide) (by decide)) (by decide))
  have h3 : Reach 2 c1s3 := h2.tail (stepCast (Step.getItemStep c1s2 (by decide)) (by decide))
  have h4 : Reach 2 c1s4 := h3.tail (stepCast (Step.getItemStep c1s3 (by decide)) (by decide))
  have h5 : Reach 2 c1s5 := h4.tail (stepCast (Step.acquire c1s4 (by decide) (by decide)) (by decide))
  have h6 : Reach 2 c1s6 := h5.tail (stepCast (Step.get2Miss c1s5 (by decide) (by decide)) (by decide))
  have h7 : Reach 2 c1s7 := h6.tail (stepCast (Step.createStep c1s6 (by decide)) (by decide))
  have h8 : Reach 2 c1s8 := h7.tail (stepCast (Step.unlockStep c1s7 (by decide)) (by decide))
  have h9 : Reach 2 c1s9 := h8.tail (stepCast (Step.fetchBegin c1s8 (by decide)) (by decide))
  have h10 : Reach 2 c1s10 := h9.tail (stepCast (Step.fetchEnd c1s9 (by decide) ⟨true, false, true⟩ (by decide)) (by decide))
  have h11 : Reach 2 c1s11 := h10.tail (stepCast (Step.acquire c1s10 (by decide) (by decide)) (by decide))
  have h12 : Reach 2 c1s12 := h11.tail (stepCast (Step.get2Hit c1s11 (by decide) ⟨false, false, false⟩ (by decide)) (by decide))
  have h13 : Reach 2 c1s13 := h12.tail (stepCast (Step.read2Plain c1s12 (by decide) ⟨false, false, false⟩ (by decide) (by decide) (Or.inl (by decide))) (by decide))
  exact ⟨h13, by decide, by decide, by decide, by decide, by decide⟩

/-- Goroutines currently holding the key lock: at `lGet2`, `lRead2`,
`lCreate` or `lUnlock` — or terminated through the double-check-hit
return, which keeps the lock (`doneLeak`). -/
def holders (s : CState) : Nat :=
  s.th.lGet2 + s.th.lRead2 + s.th.lCreate + s.th.lUnlock + s.th.doneLeak

/-- Invariant while the driver has no entry: nobody has read, fetched or
returned yet. -/
def NonePhase (t : ThreadCounts) (fc : Nat) : Prop :=
  t.lRead1 = 0 ∧ t.lRead2 = 0 ∧ t.lUnlock = 0 ∧ t.lFetch = 0 ∧
  t.lFetching = 0 ∧ t.doneVal = 0 ∧ t.doneRead = 0 ∧ t.doneLeak = 0 ∧
  fc = 0

/-- Invariant while the placeholder is write-locked: it is the stale,
non-fetching placeholder; exactly one populator stands at
`lUnlock`/`lFetch`/`lFetching`; nobody has returned; the fetch counter
counts the populator's fetch once started. -/
def WriterPhase (t : ThreadCounts) (fc : Nat) (it : ItemState) : Prop :=
  it.stale = true ∧ it.fetching = false ∧
  t.lUnlock + t.lFetch + t.lFetching = 1 ∧ t.lCreate = 0 ∧
  t.doneVal = 0 ∧ t.doneRead = 0 ∧ t.doneLeak = 0 ∧ fc = t.lFetching

/-- Invariant once the populated entry is published and unlocked: fresh
(not stale in this window), no fetch in flight, the fetch function has
run exactly once. -/
def ReadyPhase (t : ThreadCounts) (fc : Nat) (it : ItemState) : Prop :=
  it.stale = false ∧ it.fetching = false ∧ fc = 1 ∧
  t.lCreate = 0 ∧ t.lUnlock = 0 ∧ t.lFetch = 0 ∧ t.lFetching = 0 ∧
  t.doneVal = 1

/-- The inductive invariant: the key mutex is held exactly when one
goroutine is a holder; no refetch is ever spawned in this window; and the
phase determined by the driver entry. -/
def CInv (s : CState) : Prop :=
  s.lockHeld.toNat = holders s ∧
  s.th.rFetch = 0 ∧ s.th.rFetching = 0 ∧ s.th.rDone = 0 ∧
  (s.driver = none → NonePhase s.th s.fetchCount) ∧
  (∀ it : ItemState, s.driver = some it → it.writer = true →
    WriterPhase s.th s.fetchCount it) ∧
  (∀ it : ItemState, s.driver = some it → it.writer = false →
    ReadyPhase s.th s.fetchCount it)

theorem inv_init (n : Nat) : CInv (init n) := by
  refine ⟨rfl, rfl, rfl, rfl, fun _ => ?_, fun it hd => ?_, fun it hd => ?_⟩
  · exact ⟨rfl, rfl, rfl, rfl, rfl, rfl, rfl, rfl, rfl⟩
  · exact absurd hd (by simp [init])
  · exact absurd hd (by simp [init])

theorem inv_get1Miss {s : CState} (hinv : CInv s) (hd : s.driver = none) :
    CInv { s with th := { s.th with lGet1 := s.th.lGet1 - 1, lGetItem := s.th.lGetItem + 1 } } := by
  obtain ⟨hL, hRF, hRFi, hRD, hN, hW, hR⟩ := hinv
  obtain ⟨n1, n2, n3, n4, n5, n6, n7, n8, n9⟩ := hN hd
  refine ⟨?_, hRF, hRFi, hRD, fun _ => ?_, fun it hd2 hw => ?_, fun it hd2 hw => ?_⟩
  · simpa [holders] using hL
  · exact ⟨n1, n2, n3, n4, n5, n6, n7, n8, n9⟩
  · rw [hd] at hd2
    exact absurd hd2 (by simp)
  · rw [hd] at hd2
    exact absurd hd2 (by simp)

theorem inv_get1Hit {s : CState} (hinv : CInv s) (it0 : ItemState)
    (hd : s.driver = some it0) :
    CInv { s with th := { s.th with lGet1 := s.th.lGet1 - 1, lRead1 := s.th.lRead1 + 1 } } := by
  obtain ⟨hL, hRF, hRFi, hRD, hN, hW, hR⟩ := hinv
  refine ⟨?_, hRF, hRFi, hRD, fun hd2 => ?_, fun it2 hd2 hw2 => ?_, fun it2 hd2 hw2 => ?_⟩
  · simpa [holders] using hL
  · have hd3 : s.driver = none := hd2
    rw [hd] at hd3
    exact absurd hd3 (by simp)
  · obtain ⟨w1, w2, w3, w4, w5, w6, w7, w8⟩ := hW it2 hd2 hw2
    exact ⟨w1, w2, w3, w4, w5, w6, w7, w8⟩
  · obtain ⟨r1, r2, r3, r4, r5, r6, r7, r8⟩ := hR it2 hd2 hw2
    exact ⟨r1, r2, r3, r4, r5, r6, r7, r8⟩

theorem inv_read1Plain {s : CState} (hinv : CInv s) (it0 : ItemState)
    (hd : s.driver = some it0) (hw : it0.writer = false) :
    CInv { s with th := { s.th with lRead1 := s.th.lRead1 - 1, doneRead := s.th.doneRead + 1 } } := by
  obtain ⟨hL, hRF, hRFi, hRD, hN, hW, hR⟩ := hinv
  refine ⟨?_, hRF, hRFi, hRD, fun hd2 => ?_, fun it2 hd2 hw2 => ?_, fun it2 hd2 hw2 => ?_⟩
  · simpa [holders] using hL
  · have hd3 : s.driver = none := hd2
    rw [hd] at hd3
    exact absurd hd3 (by simp)
  · have hd3 : s.driver = some it2 := hd2
    rw [hd] at hd3
    injection hd3 with he
    subst he
    rw [hw] at hw2
    exact absurd hw2 (by decide)
  · obtain ⟨r1, r2, r3, r4, r5, r6, r7, r8⟩ := hR it2 hd2 hw2
    exact ⟨r1, r2, r3, r4, r5, r6, r7, r8⟩

theorem inv_read1Spawn {s : CState} (hinv : CInv s) (it0 : ItemState)
    (hd : s.driver = some it0) (hw : it0.writer = false) (hst : it0.stale = true) :
    CInv { s with driver := some { it0 with fetching := true }, th := { s.th with lRead1 := s.th.lRead1 - 1, doneRead := s.th.doneRead + 1, rFetch := s.th.rFetch + 1 } } := by
  obtain ⟨hL, hRF, hRFi, hRD, hN, hW, hR⟩ := hinv
  have h1 := (hR it0 hd hw).1
  rw [hst] at h1
  exact absurd h1 (by decide)

theorem inv_getItemStep {s : CState} (hinv : CInv s) :
    CInv { s with lockRef := s.lockRef + 1, th := { s.th with lGetItem := s.th.lGetItem - 1, lAcquire := s.th.lAcquire + 1 } } := by
  obtain ⟨hL, hRF, hRFi, hRD, hN, hW, hR⟩ := hinv
  refine ⟨?_, hRF, hRFi, hRD, fun hd2 => ?_, fun it2 hd2 hw2 => ?_, fun it2 hd2 hw2 => ?_⟩
  · simpa [holders] using hL
  · obtain ⟨n1, n2, n3, n4, n5, n6, n7, n8, n9⟩ := hN hd2
    exact ⟨n1, n2, n3, n4, n5, n6, n7, n8, n9⟩
  · obtain ⟨w1, w2, w3, w4, w5, w6, w7, w8⟩ := hW it2 hd2 hw2
    exact ⟨w1, w2, w3, w4, w5, w6, w7, w8⟩
  · obtain ⟨r1, r2, r3, r4, r5, r6, r7, r8⟩ := hR it2 hd2 hw2
    exact ⟨r1, r2, r3, r4, r5, r6, r7, r8⟩

theorem inv_acquire {s : CState} (hinv : CInv s) (hl : s.lockHeld = false) :
    CInv { s with lockHeld := true, th := { s.th with lAcquire := s.th.lAcquire - 1, lGet2 := s.th.lGet2 + 1 } } := by
  obtain ⟨hL, hRF, hRFi, hRD, hN, hW, hR⟩ := hinv
  rw [hl] at hL
  refine ⟨?_, hRF, hRFi, hRD, fun hd2 => ?_, fun it2 hd2 hw2 => ?_, fun it2 hd2 hw2 => ?_⟩
  · simp only [holders, Bool.toNat_false, Bool.toNat_true] at hL ⊢
    omega
  · obtain ⟨n1, n2, n3, n4, n5, n6, n7, n8, n9⟩ := hN hd2
    exact ⟨n1, n2, n3, n4, n5, n6, n7, n8, n9⟩
  · obtain ⟨w1, w2, w3, w4, w5, w6, w7, w8⟩ := hW it2 hd2 hw2
    exact ⟨w1, w2, w3, w4, w5, w6, w7, w8⟩
  · obtain ⟨r1, r2, r3, r4, r5, r6, r7, r8⟩ := hR it2 hd2 hw2
    exact ⟨r1, r2, r3, r4, r5, r6, r7, r8⟩

theorem inv_get2Miss {s : CState} (hinv : CInv s) (h : 0 < s.th.lGet2) (hd : s.driver = none) :
    CInv { s with th := { s.th with lGet2 := s.th.lGet2 - 1, lCreate := s.th.lCreate + 1 } } := by
  obtain ⟨hL, hRF, hRFi, hRD, hN, hW, hR⟩ := hinv
  obtain ⟨n1, n2, n3, n4, n5, n6, n7, n8, n9⟩ := hN hd
  refine ⟨?_, hRF, hRFi, hRD, fun _ => ?_, fun it2 hd2 hw2 => ?_, fun it2 hd2 hw2 => ?_⟩
  · simp only [holders] at hL ⊢
    omega
  · exact ⟨n1, n2, n3, n4, n5, n6, n7, n8, n9⟩
  · have hd3 : s.driver = some it2 := hd2
    rw [hd] at hd3
    exact absurd hd3 (by simp)
  · have hd3 : s.driver = some it2 := hd2
    rw [hd] at hd3
    exact absurd hd3 (by simp)

theorem inv_get2Hit {s : CState} (hinv : CInv s) (h : 0 < s.th.lGet2)
    (it0 : ItemState) (hd : s.driver = some it0) :
    CInv { s with th := { s.th with lGet2 := s.th.lGet2 - 1, lRead2 := s.th.lRead2 + 1 } } := by
  obtain ⟨hL, hRF, hRFi, hRD, hN, hW, hR⟩ := hinv
  refine ⟨?_, hRF, hRFi, hRD, fun hd2 => ?_, fun it2 hd2 hw2 => ?_, fun it2 hd2 hw2 => ?_⟩
  · simp only [holders] at hL ⊢
    omega
  · have hd3 : s.driver = none := hd2
    rw [hd] at hd3
    exact absurd hd3 (by simp)
  · obtain ⟨w1, w2, w3, w4, w5, w6, w7, w8⟩ := hW it2 hd2 hw2
    exact ⟨w1, w2, w3, w4, w5, w6, w7, w8⟩
  · obtain ⟨r1, r2, r3, r4, r5, r6, r7, r8⟩ := hR it2 hd2 hw2
    exact ⟨r1, r2, r3, r4, r5, r6, r7, r8⟩

theorem inv_read2Plain {s : CState} (hinv : CInv s) (h : 0 < s.th.lRead2) (it0 : ItemState)
    (hd : s.driver = some it0) (hw : it0.writer = false) :
    CInv { s with th := { s.th with lRead2 := s.th.lRead2 - 1, doneLeak := s.th.doneLeak + 1 } } := by
  obtain ⟨hL, hRF, hRFi, hRD, hN, hW, hR⟩ := hinv
  refine ⟨?_, hRF, hRFi, hRD, fun hd2 => ?_, fun it2 hd2 hw2 => ?_, fun it2 hd2 hw2 => ?_⟩
  · simp only [holders] at hL ⊢
    omega
  · have hd3 : s.driver = none := hd2
    rw [hd] at hd3
    exact absurd hd3 (by simp)
  · have hd3 : s.driver = some it2 := hd2
    rw [hd] at hd3
    injection hd3 with he
    subst he
    rw [hw] at hw2
    exact absurd hw2 (by decide)
  · obtain ⟨r1, r2, r3, r4, r5, r6, r7, r8⟩ := hR it2 hd2 hw2
    exact ⟨r1, r2, r3, r4, r5, r6, r7, r8⟩

theorem inv_read2Spawn {s : CState} (hinv : CInv s) (it0 : ItemState)
    (hd : s.driver = some it0) (hw : it0.writer = false) (hst : it0.stale = true) :
    CInv { s with driver := some { it0 with fetching := true }, th := { s.th with lRead2 := s.th.lRead2 - 1, doneLeak := s.th.doneLeak + 1, rFetch := s.th.rFetch + 1 } } := by
  obtain ⟨hL, hRF, hRFi, hRD, hN, hW, hR⟩ := hinv
  have h1 := (hR it0 hd hw).1
  rw [hst] at h1
  exact absurd h1 (by decide)

theorem inv_createStep {s : CState} (hinv : CInv s) (h : 0 < s.th.lCreate) :
    CInv { s with driver := some ⟨true, false, true⟩, th := { s.th with lCreate := s.th.lCreate - 1, lUnlock := s.th.lUnlock + 1 } } := by
  obtain ⟨hL, hRF, hRFi, hRD, hN, hW, hR⟩ := hinv
  have hb : s.lockHeld.toNat ≤ 1 := by cases s.lockHeld <;> simp
  cases hcase : s.driver with
  | some it0 =>
    exfalso
    cases hwit : it0.writer with
    | true =>
      have hc := (hW it0 hcase hwit).2.2.2.1
      omega
    | false =>
      have hc := (hR it0 hcase hwit).2.2.2.1
      omega
  | none =>
    obtain ⟨n1, n2, n3, n4, n5, n6, n7, n8, n9⟩ := hN hcase
    have hhold : holders s ≤ 1 := by
      rw [← hL]
      exact hb
    simp only [holders] at hhold
    refine ⟨?_, hRF, hRFi, hRD, fun hd2 => ?_, fun it2 hd2 hw2 => ?_, fun it2 hd2 hw2 => ?_⟩
    · simp only [holders] at hL ⊢
      omega
    · have hd3 : (some (⟨true, false, true⟩ : ItemState) : Option ItemState) = none := hd2
      exact absurd hd3 (by simp)
    · have hd3 : (some (⟨true, false, true⟩ : ItemState) : Option ItemState) = some it2 := hd2
      injection hd3 with he
      subst he
      refine ⟨rfl, rfl, ?_, ?_, n6, n7, n8, ?_⟩
      · show s.th.lUnlock + 1 + s.th.lFetch + s.th.lFetching = 1
        omega
      · show s.th.lCreate - 1 = 0
        omega
      · show s.fetchCount = s.th.lFetching
        omega
    · have hd3 : (some (⟨true, false, true⟩ : ItemState) : Option ItemState) = some it2 := hd2
      injection hd3 with he
      subst he
      exact absurd hw2 (by decide)

theorem inv_unlockStep {s : CState} (hinv : CInv s) (h : 0 < s.th.lUnlock) :
    CInv { s with lockHeld := false, lockRef := s.lockRef - 1, th := { s.th with lUnlock := s.th.lUnlock - 1, lFetch := s.th.lFetch + 1 } } := by
  obtain ⟨hL, hRF, hRFi, hRD, hN, hW, hR⟩ := hinv
  have hb : s.lockHeld.toNat ≤ 1 := by cases s.lockHeld <;> simp
  cases hcase : s.driver with
  | none =>
    exfalso
    have hc := (hN hcase).2.2.1
    omega
  | some it0 =>
    cases hwit : it0.writer with
    | false =>
      exfalso
      have hc := (hR it0 hcase hwit).2.2.2.2.1
      omega
    | true =>
      obtain ⟨w1, w2, w3, w4, w5, w6, w7, w8⟩ := hW it0 hcase hwit
      refine ⟨?_, hRF, hRFi, hRD, fun hd2 => ?_, fun it2 hd2 hw2 => ?_, fun it2 hd2 hw2 => ?_⟩
      · simp only [holders, Bool.toNat_false, Bool.toNat_true] at hL ⊢
        omega
      · have hd3 : (some it0 : Option ItemState) = none := hd2
        exact absurd hd3 (by simp)
      · have hd3 : (some it0 : Option ItemState) = some it2 := hd2
        injection hd3 with he
        subst he
        refine ⟨w1, w2, ?_, w4, w5, w6, w7, ?_⟩
        · show s.th.lUnlock - 1 + (s.th.lFetch + 1) + s.th.lFetching = 1
          omega
        · show s.fetchCount = s.th.lFetching
          omega
      · have hd3 : (some it0 : Option ItemState) = some it2 := hd2
        injection hd3 with he
        subst he
        rw [hwit] at hw2
        exact absurd hw2 (by decide)

theorem inv_fetchBegin {s : CState} (hinv : CInv s) (h : 0 < s.th.lFetch) :
    CInv { s with fetchCount := s.fetchCount + 1, th := { s.th with lFetch := s.th.lFetch - 1, lFetching := s.th.lFetching + 1 } } := by
  obtain ⟨hL, hRF, hRFi, hRD, hN, hW, hR⟩ := hinv
  cases hcase : s.driver with
  | none =>
    exfalso
    have hc := (hN hcase).2.2.2.1
    omega
  | some it0 =>
    cases hwit : it0.writer with
    | false =>
      exfalso
      have hc := (hR it0 hcase hwit).2.2.2.2.2.1
      omega
    | true =>
      obtain ⟨w1, w2, w3, w4, w5, w6, w7, w8⟩ := hW it0 hcase hwit
      refine ⟨?_, hRF, hRFi, hRD, fun hd2 => ?_, fun it2 hd2 hw2 => ?_, fun it2 hd2 hw2 => ?_⟩
      · simpa [holders] using hL
      · have hd3 : (some it0 : Option ItemState) = none := hd2
        exact absurd hd3 (by simp)
      · have hd3 : (some it0 : Option ItemState) = some it2 := hd2
        injection hd3 with he
        subst he
        refine ⟨w1, w2, ?_, w4, w5, w6, w7, ?_⟩
        · show s.th.lUnlock + (s.th.lFetch - 1) + (s.th.lFetching + 1) = 1
          omega
        · show s.fetchCount + 1 = s.th.lFetching + 1
          omega
      · have hd3 : (some it0 : Option ItemState) = some it2 := hd2
        injection hd3 with he
        subst he
        rw [hwit] at hw2
        exact absurd hw2 (by decide)

theorem inv_fetchEnd {s : CState} (hinv : CInv s) (h : 0 < s.th.lFetching)
    (it0 : ItemState) (hd : s.driver = some it0) :
    CInv { s with driver := some ⟨false, it0.fetching, false⟩, th := { s.th with lFetching := s.th.lFetching - 1, doneVal := s.th.doneVal + 1 } } := by
  obtain ⟨hL, hRF, hRFi, hRD, hN, hW, hR⟩ := hinv
  cases hwit : it0.writer with
  | false =>
    exfalso
    have hc := (hR it0 hd hwit).2.2.2.2.2.2.1
    omega
  | true =>
    obtain ⟨w1, w2, w3, w4, w5, w6, w7, w8⟩ := hW it0 hd hwit
    refine ⟨?_, hRF, hRFi, hRD, fun hd2 => ?_, fun it2 hd2 hw2 => ?_, fun it2 hd2 hw2 => ?_⟩
    · simpa [holders] using hL
    · have hd3 : (some (⟨false, it0.fetching, false⟩ : ItemState) : Option ItemState) = none := hd2
      exact absurd hd3 (by simp)
    · have hd3 : (some (⟨false, it0.fetching, false⟩ : ItemState) : Option ItemState) = some it2 := hd2
      injection hd3 with he
      subst he
      have hwr : (⟨false, it0.fetching, false⟩ : ItemState).writer = false := rfl
      rw [hwr] at hw2
      exact absurd hw2 (by decide)
    · have hd3 : (some (⟨false, it0.fetching, false⟩ : ItemState) : Option ItemState) = some it2 := hd2
      injection hd3 with he
      subst he
      refine ⟨rfl, w2, ?_, w4, ?_, ?_, ?_, ?_⟩
      · show s.fetchCount = 1
        omega
      · show s.th.lUnlock = 0
        omega
      · show s.th.lFetch = 0
        omega
      · show s.th.lFetching - 1 = 0
        omega
      · show s.th.doneVal + 1 = 1
        omega

theorem inv_refetchBegin {s : CState} (hinv : CInv s) (h : 0 < s.th.rFetch) :
    CInv { s with fetchCount := s.fetchCount + 1, th := { s.th with rFetch := s.th.rFetch - 1, rFetching := s.th.rFetching + 1 } } := by
  exfalso
  have hc := hinv.2.1
  omega

theorem inv_refetchEnd {s : CState} (hinv : CInv s) (h : 0 < s.th.rFetching)
    (it0 : ItemState) :
    CInv { s with driver := some ⟨false, false, it0.writer⟩, th := { s.th with rFetching := s.th.rFetching - 1, rDone := s.th.rDone + 1 } } := by
  exfalso
  have hc := hinv.2.2.1
  omega

theorem inv_step {s s2 : CState} (hinv : CInv s) (hst : Step s s2) : CInv s2 := by
  cases hst with
  | get1Miss h hd => exact inv_get1Miss hinv hd
  | get1Hit h it0 hd => exact inv_get1Hit hinv it0 hd
  | read1Plain h it0 hd hw hns => exact inv_read1Plain hinv it0 hd hw
  | read1Spawn h it0 hd hw hst2 hf => exact inv_read1Spawn hinv it0 hd hw hst2
  | getItemStep h => exact inv_getItemStep hinv
  | acquire h hl => exact inv_acquire hinv hl
  | get2Miss h hd => exact inv_get2Miss hinv h hd
  | get2Hit h it0 hd => exact inv_get2Hit hinv h it0 hd
  | read2Plain h it0 hd hw hns => exact inv_read2Plain hinv h it0 hd hw
  | read2Spawn h it0 hd hw hst2 hf => exact inv_read2Spawn hinv it0 hd hw hst2
  | createStep h => exact inv_createStep hinv h
  | unlockStep h => exact inv_unlockStep hinv h
  | fetchBegin h => exact inv_fetchBegin hinv h
  | fetchEnd h it0 hd => exact inv_fetchEnd hinv h it0 hd
  | refetchBegin h => exact inv_refetchBegin hinv h
  | refetchEnd h it0 hd hw => exact inv_refetchEnd hinv h it0

theorem inv_reach {n : Nat} {s : CState} (h : Reach n s) : CInv s := by
  have h2 : Relation.ReflTransGen Step (init n) s := h
  clear h
  induction h2 with
  | refl => exact inv_init n
  | tail h3 h4 ih => exact inv_step ih h4

/-- Claim C3: for any number `n` of concurrent `Load` calls on the same
uncached key (default non-evicting driver, one freshness window), in
every reachable interleaving state the fetch function has been invoked at
most once, at most one fetch (synchronous or background) is in flight,
and once any of the calls has returned — with the fetched value, with a
fast-path read, or through the double-check hit — the fetch function has
been invoked exactly once.  The synchronous path is serialized by the key
lock plus the placeholder published before unlocking; the refresh path by
the `isFetching` compare-and-swap (which provably never fires in this
window). -/
theorem C3_fetch_coalesced_once {n : Nat} {s : CState} (h : Reach n s) :
    s.fetchCount ≤ 1 ∧ s.th.lFetching + s.th.rFetching ≤ 1 ∧
    (0 < s.th.doneVal + s.th.doneRead + s.th.doneLeak → s.fetchCount = 1) := by
  obtain ⟨hL, hRF, hRFi, hRD, hN, hW, hR⟩ := inv_reach h
  cases hcase : s.driver with
  | none =>
    obtain ⟨n1, n2, n3, n4, n5, n6, n7, n8, n9⟩ := hN hcase
    exact ⟨by omega, by omega, fun hdone => by omega⟩
  | some it0 =>
    cases hwit : it0.writer with
    | true =>
      obtain ⟨w1, w2, w3, w4, w5, w6, w7, w8⟩ := hW it0 hcase hwit
      exact ⟨by omega, by omega, fun hdone => by omega⟩
    | false =>
      obtain ⟨r1, r2, r3, r4, r5, r6, r7, r8⟩ := hR it0 hcase hwit
      exact ⟨by omega, by omega, fun hdone => by omega⟩

/-- Concrete witness for C3: the initial state of two concurrent calls is
reachable and satisfies the coalescing bounds. -/
theorem C3_witness :
    Reach 2 (init 2) ∧
    ((init 2).fetchCount ≤ 1 ∧
     (init 2).th.lFetching + (init 2).th.rFetching ≤ 1 ∧
     (0 < (init 2).th.doneVal + (init 2).th.doneRead + (init 2).th.doneLeak →
       (init 2).fetchCount = 1)) :=
  ⟨Relation.ReflTransGen.refl, C3_fetch_coalesced_once Relation.ReflTransGen.refl⟩
